import Mathlib

set_option maxHeartbeats 1000000

/-!
Verification development for the ClueWeb22 parallel-shard aligned reader
(`ir_datasets_clueweb22/clueweb22.py`).  Python strings are modelled as
`List Char` (with `String` wrappers at the API boundary), byte blobs as
`List Nat`, and the on-disk record-count catalogs as explicit parameters.
Lazy generators are modelled as the lists they yield.
-/

/-- Decimal-digit test for one character.  Models the digit acceptance of
Python `int()` on the plain decimal strings this module handles (`int()`
additionally tolerates signs, surrounding whitespace and underscores; the
identifier segments parsed here are `-`-free and, as produced by the
formatter, digit-only). -/
def pyIsDigit (c : Char) : Bool := 48 ≤ c.toNat && c.toNat ≤ 57

/-- Decimal digit to its character, used to model Python `str(n)`. -/
def digitChar : Nat → Char
  | 0 => '0'
  | 1 => '1'
  | 2 => '2'
  | 3 => '3'
  | 4 => '4'
  | 5 => '5'
  | 6 => '6'
  | 7 => '7'
  | 8 => '8'
  | 9 => '9'
  | _ => '0'

/-- Digits of `n`, least significant first, with explicit fuel so that the
definition is structural (and hence kernel-evaluable). -/
def natToDigitsRevGo : Nat → Nat → List Char
  | 0, _ => []
  | fuel + 1, n => if n = 0 then [] else digitChar (n % 10) :: natToDigitsRevGo fuel (n / 10)

/-- Model of Python decimal formatting `str(n)` for a non-negative integer. -/
def natToStrChars (n : Nat) : List Char :=
  if n = 0 then ['0'] else (natToDigitsRevGo n n).reverse

/-- Model of the Python format spec `f"{s:0>w}"`: left-pad with `'0'` to
width `w`, never truncating. -/
def padZeroChars (w : Nat) (l : List Char) : List Char :=
  List.replicate (w - l.length) '0' ++ l

/-- Value of a big-endian decimal digit string. -/
def digitsVal (cs : List Char) : Nat :=
  cs.foldl (fun a c => 10 * a + (c.toNat - 48)) 0

/-- Model of Python `int(s)` on a `-`-free decimal string: fails (raising
`ValueError`) unless the string is non-empty and all digits. -/
def pyIntChars? (cs : List Char) : Option Nat :=
  if cs.isEmpty then none
  else if cs.all pyIsDigit then some (digitsVal cs) else none

/-- Whitespace test for Python `int()`'s tolerance of surrounding
whitespace (relevant for offset lines that carry their trailing newline). -/
def isWSChar (c : Char) : Bool := c == ' ' || c == '\n' || c == '\t' || c == '\r'

/-- Strip leading and trailing whitespace. -/
def stripChars (cs : List Char) : List Char :=
  ((cs.dropWhile isWSChar).reverse.dropWhile isWSChar).reverse

/-- Model of Python `int(line)` for a text line that may carry its
newline. -/
def pyIntLine? (cs : List Char) : Option Nat := pyIntChars? (stripChars cs)

/-- Model of Python `str.split(sep)` for a one-character separator:
`"".split("-") = [""]`, `"a-b".split("-") = ["a", "b"]`, empty segments
kept. -/
def pySplitOn (sep : Char) : List Char → List (List Char)
  | [] => [[]]
  | c :: cs =>
    if c = sep then [] :: pySplitOn sep cs
    else
      match pySplitOn sep cs with
      | [] => [[c]]
      | g :: gs => (c :: g) :: gs

/-- Model of the Python slice `s[:-k]` (Nat subtraction matches Python's
clamping for short strings). -/
def pySliceToNeg (k : Nat) (l : List Char) : List Char := l.take (l.length - k)

/-- Model of the Python slice `s[-a:-b]` for `a ≥ b`. -/
def pySliceNegNeg (a b : Nat) (l : List Char) : List Char :=
  (l.take (l.length - b)).drop (l.length - a)

/-- Model of the Python slice `s[-k:]`. -/
def pySliceFromNeg (k : Nat) (l : List Char) : List Char := l.drop (l.length - k)

/-- Does `cs` start with `pat`? -/
def hasStart : List Char → List Char → Bool
  | [], _ => true
  | _ :: _, [] => false
  | p :: ps, c :: cs => p == c && hasStart ps cs

/-- Fueled worker for `pyReplace` (structural, kernel-evaluable). -/
def pyReplaceGo (pat repl : List Char) : Nat → List Char → List Char
  | _, [] => []
  | 0, cs => cs
  | fuel + 1, c :: cs =>
    if hasStart pat (c :: cs) && !pat.isEmpty then
      repl ++ pyReplaceGo pat repl fuel ((c :: cs).drop pat.length)
    else c :: pyReplaceGo pat repl fuel cs

/-- Model of Python `s.replace(pat, repl)`: replace all non-overlapping
occurrences, scanning left to right. -/
def pyReplace (cs pat repl : List Char) : List Char := pyReplaceGo pat repl cs.length cs

/-- Worker for `firstSeenKeys`: drop elements already seen. -/
def firstSeenDedupGo {β : Type} [DecidableEq β] (seen : List β) : List β → List β
  | [] => []
  | b :: bs =>
    if b ∈ seen then firstSeenDedupGo seen bs
    else b :: firstSeenDedupGo (b :: seen) bs

/- ------------------------------------------------------------------ -/
/- DocId and FileId codecs (`ClueWeb22DocId.from_string` / `__str__`). -/
/- ------------------------------------------------------------------ -/

/-- The eleven supported ClueWeb22 language ids (`ClueWeb22Language` enum,
field `id`). -/
def languageIds : List String :=
  ["de", "en", "es", "fr", "it", "ja", "nl", "po", "pt", "zh_chs", "other"]

/-- ClueWeb22 document identifier (`ClueWeb22DocId` NamedTuple). -/
structure ClueWeb22DocId where
  language : String
  stream : Nat
  subdirectory : Nat
  file : Nat
  doc : Nat
deriving DecidableEq

/-- The `f"{n:0>2}"` formatting used throughout the path builders. -/
def pad2Chars (n : Nat) : List Char := padZeroChars 2 (natToStrChars n)

/-- The `f"{n:0>5}"` formatting of the doc sequence. -/
def pad5Chars (n : Nat) : List Char := padZeroChars 5 (natToStrChars n)

/-- Body of `ClueWeb22DocId.from_string` after the 4-way split: the
dataset-marker check, language lookup (`subdirectory[:-4]`), stream
(`subdirectory[-4:-2]`), subdirectory (`subdirectory[-2:]`, rejected
above 80), file (rejected above 100) and doc sequence.  `none` stands
for the raised `ValueError` (from the explicit raises or from `int()`). -/
def fromParts (dataset seg2 fileSeg docSeg : List Char) : Option ClueWeb22DocId :=
  if dataset ≠ "clueweb22".data then none
  else
    if ¬ languageIds.contains ⟨pySliceToNeg 4 seg2⟩ then none
    else
      match pyIntChars? (pySliceNegNeg 4 2 seg2) with
      | none => none
      | some streamId =>
        match pyIntChars? (pySliceFromNeg 2 seg2) with
        | none => none
        | some subdirectoryId =>
          if subdirectoryId > 80 then none
          else
            match pyIntChars? fileSeg with
            | none => none
            | some fileId =>
              if fileId > 100 then none
              else
                match pyIntChars? docSeg with
                | none => none
                | some doc => some ⟨⟨pySliceToNeg 4 seg2⟩, streamId, subdirectoryId, fileId, doc⟩

/-- `ClueWeb22DocId.from_string`: split on `-`, require exactly four
segments, then parse the components. -/
def fromChars (cs : List Char) : Option ClueWeb22DocId :=
  match pySplitOn '-' cs with
  | [dataset, seg2, fileSeg, docSeg] => fromParts dataset seg2 fileSeg docSeg
  | _ => none

/-- `ClueWeb22DocId.from_string` at the `String` boundary. -/
def docIdFromString (s : String) : Option ClueWeb22DocId := fromChars s.data

/-- `ClueWeb22DocId.__str__`: `"-".join(["clueweb22", lang+ss+dd, ff, ddddd])`. -/
def toChars (d : ClueWeb22DocId) : List Char :=
  List.intercalate ['-']
    ["clueweb22".data,
     d.language.data ++ pad2Chars d.stream ++ pad2Chars d.subdirectory,
     pad2Chars d.file,
     pad5Chars d.doc]

/-- `ClueWeb22DocId.__str__` at the `String` boundary. -/
def docIdToString (d : ClueWeb22DocId) : String := ⟨toChars d⟩

/-- `ClueWeb22DocId.path`: `join(language, lang+ss, lang+ss+dd, lang+ss+dd-ff)`
with `/` separators. -/
def docIdPathChars (d : ClueWeb22DocId) : List Char :=
  let languagePath := d.language.data
  let streamPath := languagePath ++ pad2Chars d.stream
  let subdirectoryPath := streamPath ++ pad2Chars d.subdirectory
  let filePath := subdirectoryPath ++ '-' :: pad2Chars d.file
  languagePath ++ '/' :: streamPath ++ '/' :: subdirectoryPath ++ '/' :: filePath

/-- ClueWeb22 file identifier (`ClueWeb22FileId` NamedTuple, a DocId
without the doc sequence). -/
structure ClueWeb22FileId where
  language : String
  stream : Nat
  subdirectory : Nat
  file : Nat
deriving DecidableEq

/- ------------------------------------------------------------------ -/
/- Formats and subsets (`ClueWeb22Format` / `ClueWeb22Subset` enums).  -/
/- ------------------------------------------------------------------ -/

/-- The ClueWeb22 record formats (`ClueWeb22Format` enum). -/
inductive ClueWeb22Format
  | HTML
  | INLINK
  | OUTLINK
  | TXT
  | JPG
  | VDOM
deriving DecidableEq

/-- Format `id` field. -/
def formatId : ClueWeb22Format → String
  | .HTML => "html"
  | .INLINK => "inlink"
  | .OUTLINK => "outlink"
  | .TXT => "txt"
  | .JPG => "jpg"
  | .VDOM => "vdom"

/-- Format `extension` field (JPG's is `NotImplemented` in the source and
never used; modelled as the empty string). -/
def formatExtension : ClueWeb22Format → String
  | .HTML => ".warc.gz"
  | .INLINK => ".json.gz"
  | .OUTLINK => ".json.gz"
  | .TXT => ".json.gz"
  | .JPG => ""
  | .VDOM => ".zip"

/-- Format `offset_extension` field (`none` for VDOM; JPG's is
`NotImplemented` in the source and never used). -/
def formatOffsetExtension : ClueWeb22Format → Option String
  | .HTML => some ".warc.offset"
  | .INLINK => some ".offset"
  | .OUTLINK => some ".offset"
  | .TXT => some ".offset"
  | .JPG => none
  | .VDOM => none

/-- The GZIP-compressed formats, whose shards carry offset sidecars. -/
def gzipFormats : List ClueWeb22Format :=
  [ClueWeb22Format.HTML, ClueWeb22Format.INLINK, ClueWeb22Format.OUTLINK, ClueWeb22Format.TXT]

/-- `_fix_path`: for Chinese outlink files the second directory component
uses `zh` instead of `zh_chs`; applied whenever the format is OUTLINK and
the path contains an underscore. -/
def fixPathChars (path : List Char) (fmt : ClueWeb22Format) : List Char :=
  if fmt = ClueWeb22Format.OUTLINK ∧ path.contains '_' then
    pyReplace path "zh_chs/zh_chs".data "zh_chs/zh".data
  else path

/-- `ClueWeb22Docstore._file_paths.doc_id_format_path`: the on-disk shard
path of a DocId for one format, relative to the dataset root. -/
def formatFilePathChars (fmt : ClueWeb22Format) (d : ClueWeb22DocId) : List Char :=
  (formatId fmt).data ++ '/' :: fixPathChars (docIdPathChars d) fmt ++ (formatExtension fmt).data

/-- Final path component (`file_path.name`) of a format's shard for a
FileId: `f"{lang}{ss}{dd}-{ff}"` plus the format extension. -/
def shardNameChars (fid : ClueWeb22FileId) (fmt : ClueWeb22Format) : List Char :=
  fid.language.data ++ pad2Chars fid.stream ++ pad2Chars fid.subdirectory
    ++ '-' :: pad2Chars fid.file ++ (formatExtension fmt).data

/-- `offsets_name` as computed in `_read_offsets`:
`file_path.name[:-len(extension)] + offset_extension` when the format has
an offset extension, else the empty string. -/
def offsetsNameChars (fid : ClueWeb22FileId) (fmt : ClueWeb22Format) : List Char :=
  match formatOffsetExtension fmt with
  | some oe => pySliceToNeg (formatExtension fmt).data.length (shardNameChars fid fmt) ++ oe.data
  | none => []

/-- The ClueWeb22 subsets (`ClueWeb22Subset` enum). -/
inductive ClueWeb22Subset
  | L
  | A
  | B
deriving DecidableEq

/-- Subset `formats` field (B's JPG entry is commented out in the source
pending screenshot release). -/
def subsetFormats : ClueWeb22Subset → List ClueWeb22Format
  | .L => [.TXT]
  | .A => [.TXT, .HTML, .INLINK, .OUTLINK, .VDOM]
  | .B => [.TXT, .HTML, .INLINK, .OUTLINK, .VDOM]

/-- Subset `extends` field (`B ⟶ A ⟶ L`). -/
def subsetExtends : ClueWeb22Subset → Option ClueWeb22Subset
  | .L => none
  | .A => some .L
  | .B => some .A

/-- `ClueWeb22Subset.subset_views`, the reflexive-transitive closure of
`extends`, written out along the chain `B ⟶ A ⟶ L` (the agreement with
the source's recursion over `extends` is proved in
`subsetViews_extends_rec` below). -/
def subsetViews : ClueWeb22Subset → List ClueWeb22Subset
  | .L => [.L]
  | .A => [.A, .L]
  | .B => [.B, .A, .L]

/-- `ClueWeb22Subset.diff_formats`: the subset's formats minus the formats
of every other subset view. -/
def diffFormats (s : ClueWeb22Subset) : List ClueWeb22Format :=
  (subsetFormats s).filter fun f =>
    ((subsetViews s).filter (fun v => v ≠ s)).all fun v => !(subsetFormats v).contains f

/- ------------------------------------------------------------------ -/
/- Record-count catalog (`ClueWeb22Docs`).                             -/
/- ------------------------------------------------------------------ -/

/-- `ClueWeb22Docs.diff_format_record_counts`: the counts of one
(arbitrarily chosen) diff format, falling back to the HTML format counts
when the subset has no diff formats.  The catalog (one count list per
format, as read from `record_counts/<format>/*_counts.csv`) and the
arbitrary choice made by `next(iter(...))` are parameters. -/
def diffFormatRecordCounts (s : ClueWeb22Subset)
    (catalog : ClueWeb22Format → List (ClueWeb22FileId × Nat))
    (pick : ClueWeb22Format) : List (ClueWeb22FileId × Nat) :=
  if (diffFormats s).isEmpty then catalog ClueWeb22Format.HTML else catalog pick

/-- `ClueWeb22Docs.docs_count`: the sum of the diff-format record counts. -/
def docsCountModel (s : ClueWeb22Subset)
    (catalog : ClueWeb22Format → List (ClueWeb22FileId × Nat))
    (pick : ClueWeb22Format) : Nat :=
  ((diffFormatRecordCounts s catalog pick).map Prod.snd).sum

/-- Inner loop of `ClueWeb22Docs.record_counts`: scan the (single-pass)
broader-catalog iterator for the diff FileId, returning the iterator's
remainder past the match, or `none` when the iterator is exhausted. -/
def dropToMatch : List (ClueWeb22FileId × Nat) → ClueWeb22FileId →
    Option (List (ClueWeb22FileId × Nat))
  | [], _ => none
  | (fid, _) :: rest, target => if fid = target then some rest else dropToMatch rest target

/-- `ClueWeb22Docs.record_counts`: for each diff pair, search the broader
catalog's iterator (created once and consumed destructively across outer
iterations) and emit `(file_id, diff_count)` on a match; once the broader
iterator is exhausted nothing further is ever emitted. -/
def recordCountsJoin (broader : List (ClueWeb22FileId × Nat)) :
    List (ClueWeb22FileId × Nat) → List (ClueWeb22FileId × Nat)
  | [] => []
  | (dfid, dcount) :: rest =>
    match dropToMatch broader dfid with
    | none => []
    | some remaining => (dfid, dcount) :: recordCountsJoin remaining rest

/-- Formalisation of claim C6's words: emit each diff pair whose FileId
occurs anywhere in the broader catalog, and nothing else. -/
def recordCountsClaim (broader diff : List (ClueWeb22FileId × Nat)) :
    List (ClueWeb22FileId × Nat) :=
  diff.filter fun p => (broader.map Prod.fst).contains p.fst

/- ------------------------------------------------------------------ -/
/- Slice planner (`_ClueWeb22Iterator._file_iterator_slice`).          -/
/- ------------------------------------------------------------------ -/

/-- `in_slice` of `_file_iterator_slice`. -/
def inSlice (start stop step i : Nat) : Bool :=
  decide (start ≤ i) && decide (i < stop) && ((i - start) % step == 0)

/-- `overlaps_slice` of `_file_iterator_slice`. -/
def overlapsSlice (start stop lo hi : Nat) : Bool :=
  decide (max lo start < min hi stop)

/-- Records yielded per shard by the GZIP branch of
`_file_iterator_slice.generator`: shards are modelled by their record
lists; the `OffsetIOWrapper` (module `ir_datasets_clueweb22.io`, outside
`src/`) is modelled from the spec, §4.4: the selected local indices are
read in sorted order.  Mirrors the source exactly, including that
`index_offset += count` is NOT executed on the `continue` taken when the
selected index set of an overlapping shard is empty. -/
def sliceSelectGo {α : Type} (start stop step : Nat) : List (List α) → Nat → List α
  | [], _ => []
  | shard :: rest, indexOffset =>
    if !overlapsSlice start stop indexOffset (indexOffset + shard.length) then
      sliceSelectGo start stop step rest (indexOffset + shard.length)
    else
      let fileIndices :=
        (List.range shard.length).filter fun i => inSlice start stop step (indexOffset + i)
      if fileIndices.isEmpty then
        sliceSelectGo start stop step rest indexOffset
      else
        fileIndices.filterMap shard.get? ++ sliceSelectGo start stop step rest (indexOffset + shard.length)

/-- The record sequence produced by slicing the iterator (per format). -/
def sliceSelect {α : Type} (shards : List (List α)) (start stop step : Nat) : List α :=
  sliceSelectGo start stop step shards 0

/-- Formalisation of the reference in claim C1's words: every `step`-th
element of the full iteration restricted to positions in `[start, stop)`
(Python's `xs[start:stop:step]` for a normalised slice with `step ≥ 1`). -/
def pySliceList {α : Type} (xs : List α) (start stop step : Nat) : List α :=
  ((List.range xs.length).filter fun i => inSlice start stop step i).filterMap xs.get?

/-- Indices of the shard files opened by the GZIP branch of
`_file_iterator_slice.generator` (the `file_path.open("rb")` happens as
soon as the shard's range overlaps the slice, before the selected index
set is computed); offset bookkeeping exactly as in the source. -/
def sliceOpensGo (start stop step : Nat) : List Nat → Nat → Nat → List Nat
  | [], _, _ => []
  | count :: rest, shardIndex, indexOffset =>
    if !overlapsSlice start stop indexOffset (indexOffset + count) then
      sliceOpensGo start stop step rest (shardIndex + 1) (indexOffset + count)
    else
      shardIndex ::
        (if ((List.range count).filter fun i => inSlice start stop step (indexOffset + i)).isEmpty then
          sliceOpensGo start stop step rest (shardIndex + 1) indexOffset
        else
          sliceOpensGo start stop step rest (shardIndex + 1) (indexOffset + count))

/-- Shard indices opened while slicing, given the per-shard record counts. -/
def sliceOpens (counts : List Nat) (start stop step : Nat) : List Nat :=
  sliceOpensGo start stop step counts 0 0

/-- Formalisation of claim C2's words: a shard is opened exactly when its
selected local index set
`{i | start ≤ running+i < stop ∧ (running+i−start) % step = 0}` is
non-empty, the running offset advancing by every shard's count. -/
def openedClaimGo (start stop step : Nat) : List Nat → Nat → Nat → List Nat
  | [], _, _ => []
  | count :: rest, shardIndex, indexOffset =>
    (if !((List.range count).filter fun i => inSlice start stop step (indexOffset + i)).isEmpty
      then [shardIndex] else []) ++
      openedClaimGo start stop step rest (shardIndex + 1) (indexOffset + count)

/-- Shard indices that claim C2 says get opened. -/
def openedClaim (counts : List Nat) (start stop step : Nat) : List Nat :=
  openedClaimGo start stop step counts 0 0

/- ------------------------------------------------------------------ -/
/- Aligner/combiner (`_combine_a_docs` / `_combine_b_docs`).           -/
/- ------------------------------------------------------------------ -/

/-- VDOM annotation kinds (`AnnotationType` enum). -/
inductive AnnotationType
  | NONE
  | PRIMARY
  | HEADING
  | TITLE
  | PARAGRAPH
  | TABLE
  | LIST
deriving DecidableEq

/-- Anchor sub-record (`Anchor` NamedTuple). -/
structure Anchor where
  url : String
  url_hash : String
  text : String
  language : String
deriving DecidableEq

/-- `_Txt` record. -/
structure TxtRec where
  doc_id : String
  url : String
  url_hash : String
  language : String
  text : String
deriving DecidableEq

/-- `_Html` record.  `date` (a `datetime`) and `record_id` (a `UUID`) are
opaque at this layer and carried as numbers; `html` is the byte payload. -/
structure HtmlRec where
  doc_id : String
  url : String
  url_hash : String
  language : String
  date : Nat
  record_id : Nat
  payload_digest : String
  html : List Nat
  vdom_nodes : List (AnnotationType × List Nat)
deriving DecidableEq

/-- `_Link` record (INLINK/OUTLINK); a blank line in the shard yields the
`none` placeholder instead. -/
structure LinkRec where
  doc_id : String
  url : String
  url_hash : String
  anchors : List Anchor
deriving DecidableEq

/-- `_Vdom` record (opaque blob). -/
structure VdomRec where
  vdom : List Nat
deriving DecidableEq

/-- `ClueWeb22ADoc` (field order as in the source NamedTuple). -/
structure ClueWeb22ADoc where
  doc_id : String
  url : String
  url_hash : String
  language : String
  text : String
  date : Nat
  html : List Nat
  record_id : Nat
  payload_digest : String
  vdom_nodes : List (AnnotationType × List Nat)
  vdom : List Nat
  inlink_anchors : List Anchor
  outlink_anchors : List Anchor
deriving DecidableEq

/-- `ClueWeb22BDoc` (identical to the A document while the screenshot
field stays commented out in the source). -/
structure ClueWeb22BDoc where
  doc_id : String
  url : String
  url_hash : String
  language : String
  text : String
  date : Nat
  html : List Nat
  record_id : Nat
  payload_digest : String
  vdom_nodes : List (AnnotationType × List Nat)
  vdom : List Nat
  inlink_anchors : List Anchor
  outlink_anchors : List Anchor
deriving DecidableEq

/-- The combiner's language consistency check
(`assert txt.language == "other" or txt.language == html.language`):
`true` means the assertion passes. -/
def languageCheck (txtLanguage htmlLanguage : String) : Bool :=
  txtLanguage == "other" || txtLanguage == htmlLanguage

/-- The combiner's TXT-vs-HTML URL check: equal URLs pass; otherwise the
documented comma-truncation defect is required
(`assert "," in html.url and html.url.split(",")[0] == txt.url`). -/
def txtUrlCheck (txtUrl htmlUrl : String) : Bool :=
  txtUrl == htmlUrl
    || (htmlUrl.data.contains ',' && decide ((pySplitOn ',' htmlUrl.data).headD [] = txtUrl.data))

/-- The combiner's doc_id check against an optional link record
(`assert inlink.doc_id == html.doc_id` guarded by `is not None`). -/
def linkDocIdOk (link : Option LinkRec) (htmlDocId : String) : Bool :=
  match link with
  | none => true
  | some l => l.doc_id == htmlDocId

/-- Anchors contributed by an optional link record
(`inlink.anchors if inlink is not None else []`). -/
def linkAnchors : Option LinkRec → List Anchor
  | none => []
  | some l => l.anchors

/-- One step of `_combine_a_docs` on an aligned record tuple: the fatal
assertions in source order (URL-hash and link-URL mismatches are only
logged, never fatal), then the emitted document.  `none` stands for a
raised `AssertionError`. -/
def combineADoc (txt : TxtRec) (html : HtmlRec) (inlink outlink : Option LinkRec)
    (vdom : VdomRec) : Option ClueWeb22ADoc :=
  if txt.doc_id ≠ html.doc_id then none
  else if !txtUrlCheck txt.url html.url then none
  else if !languageCheck txt.language html.language then none
  else if !linkDocIdOk inlink html.doc_id then none
  else if !linkDocIdOk outlink html.doc_id then none
  else some
    { doc_id := html.doc_id
      url := html.url
      url_hash := html.url_hash
      language := html.language
      text := txt.text
      date := html.date
      html := html.html
      record_id := html.record_id
      payload_digest := html.payload_digest
      vdom_nodes := html.vdom_nodes
      vdom := vdom.vdom
      inlink_anchors := linkAnchors inlink
      outlink_anchors := linkAnchors outlink }

/-- One step of `_combine_b_docs` (same checks and field sources as the A
combiner; the screenshot field is still commented out in the source). -/
def combineBDoc (txt : TxtRec) (html : HtmlRec) (inlink outlink : Option LinkRec)
    (vdom : VdomRec) : Option ClueWeb22BDoc :=
  if txt.doc_id ≠ html.doc_id then none
  else if !txtUrlCheck txt.url html.url then none
  else if !languageCheck txt.language html.language then none
  else if !linkDocIdOk inlink html.doc_id then none
  else if !linkDocIdOk outlink html.doc_id then none
  else some
    { doc_id := html.doc_id
      url := html.url
      url_hash := html.url_hash
      language := html.language
      text := txt.text
      date := html.date
      html := html.html
      record_id := html.record_id
      payload_digest := html.payload_digest
      vdom_nodes := html.vdom_nodes
      vdom := vdom.vdom
      inlink_anchors := linkAnchors inlink
      outlink_anchors := linkAnchors outlink }

/- ------------------------------------------------------------------ -/
/- Docstore (`ClueWeb22Docstore.get_many_iter` / `_file_paths`).       -/
/- ------------------------------------------------------------------ -/

/-- Model of `itertools.groupby(l, key)`: maximal runs of consecutive
elements with equal key, in order, as `(key, run)` pairs. -/
def groupbyRuns {α β : Type} [DecidableEq β] (key : α → β) : List α → List (β × List α)
  | [] => []
  | x :: xs =>
    match groupbyRuns key xs with
    | [] => [(key x, [x])]
    | (k, run) :: rest =>
      if key x = k then (k, x :: run) :: rest
      else (key x, [x]) :: (k, run) :: rest

/-- `ClueWeb22Docstore._file_paths` composed with `get_many_iter`: the
parsed DocIds are collected into a Python set (whose iteration order is
arbitrary and is therefore a parameter, `enumeration`) and grouped by
`doc_id_format_path` with `itertools.groupby`. -/
def docstoreFilePaths (fmt : ClueWeb22Format) (enumeration : List ClueWeb22DocId) :
    List (List Char × List ClueWeb22DocId) :=
  groupbyRuns (formatFilePathChars fmt) enumeration

/-- The shard paths opened by `get_many_iter` for one format, in order
(one `file_path.open("rb")` per `groupby` group). -/
def opensOf (fmt : ClueWeb22Format) (enumeration : List ClueWeb22DocId) : List (List Char) :=
  (docstoreFilePaths fmt enumeration).map Prod.fst

/-- Formalisation of claim C4's words: the requested shards grouped by
path in first-seen order of the input, each exactly once. -/
def firstSeenKeys {α β : Type} [DecidableEq β] (key : α → β) (l : List α) : List β :=
  firstSeenDedupGo [] (l.map key)

/-- Does `enumeration` enumerate exactly the set
`{ClueWeb22DocId.from_string(s) | s ∈ input}` (each element once, in some
order)?  Any such list is a possible iteration order of the Python set. -/
def validEnum (input : List String) (enumeration : List ClueWeb22DocId) : Bool :=
  match input.mapM docIdFromString with
  | none => false
  | some parsed => decide enumeration.Nodup && decide (List.Perm enumeration parsed.dedup)

/- ------------------------------------------------------------------ -/
/- Offset index reader (`_read_offsets` / `_fix_missing_line_break`).  -/
/- ------------------------------------------------------------------ -/

/-- `_fix_missing_line_break`: split every line longer than 11 characters
(10 digits plus newline) into its first 10 characters and the remainder. -/
def fixMissingLineBreak (lines : List (List Char)) : List (List Char) :=
  lines.flatMap fun line =>
    if line.length > 10 + 1 then [line.take 10, line.drop 10] else [line]

/-- `_read_offsets` on the sidecar's lines (each line still carrying its
newline): apply the missing-line-break repair exactly when the computed
sidecar name is `ja0009-57.warc.offset`, then parse every line with
`int()`; `none` stands for a raised `ValueError`. -/
def readOffsets (offsetsName : List Char) (lines : List (List Char)) : Option (List Nat) :=
  let fixedLines :=
    if offsetsName = "ja0009-57.warc.offset".data then fixMissingLineBreak lines else lines
  fixedLines.mapM pyIntLine?

/- ------------------------------------------------------------------ -/
/- Helper lemmas: decimal formatting and parsing.                      -/
/- ------------------------------------------------------------------ -/

theorem digitChar_spec : ∀ m, m < 10 → pyIsDigit (digitChar m) = true ∧ (digitChar m).toNat - 48 = m := by decide

theorem natToDigitsRevGo_all (fuel : Nat) : ∀ n, (natToDigitsRevGo fuel n).all pyIsDigit = true := by
  induction fuel with
  | zero => intro n; rfl
  | succ fuel ih =>
    intro n
    unfold natToDigitsRevGo
    split
    · rfl
    · rw [List.all_cons, ih (n / 10), (digitChar_spec (n % 10) (Nat.mod_lt _ (by omega))).1]
      rfl

theorem natToStrChars_all (n : Nat) : (natToStrChars n).all pyIsDigit = true := by
  unfold natToStrChars
  split
  · decide
  · rw [List.all_reverse]
    exact natToDigitsRevGo_all n n

theorem natToStrChars_ne_nil (n : Nat) : natToStrChars n ≠ [] := by
  unfold natToStrChars
  split
  · simp
  · rename_i h
    cases n with
    | zero => exact absurd rfl h
    | succ m =>
      show (natToDigitsRevGo (m + 1) (m + 1)).reverse ≠ []
      unfold natToDigitsRevGo
      rw [if_neg (by omega)]
      simp

theorem padZeroChars_all (w : Nat) (cs : List Char) (h : cs.all pyIsDigit = true) :
    (padZeroChars w cs).all pyIsDigit = true := by
  unfold padZeroChars
  rw [List.all_append, h]
  have : (List.replicate (w - cs.length) '0').all pyIsDigit = true := by
    rw [List.all_eq_true]
    intro c hc
    rw [List.eq_of_mem_replicate hc]
    decide
  rw [this]
  rfl

theorem digitsVal_append_singleton (xs : List Char) (c : Char) :
    digitsVal (xs ++ [c]) = 10 * digitsVal xs + (c.toNat - 48) := by
  unfold digitsVal
  rw [List.foldl_append]
  rfl

theorem digitsVal_go (fuel : Nat) : ∀ n, n ≤ fuel → digitsVal ((natToDigitsRevGo fuel n).reverse) = n := by
  induction fuel with
  | zero =>
    intro n hn
    interval_cases n
    rfl
  | succ fuel ih =>
    intro n hn
    unfold natToDigitsRevGo
    split
    · rename_i h; rw [h]; rfl
    · rename_i hn0
      have hdivlt : n / 10 < n := Nat.div_lt_self (by omega) (by omega)
      rw [List.reverse_cons, digitsVal_append_singleton, ih (n / 10) (by omega),
        (digitChar_spec (n % 10) (Nat.mod_lt _ (by omega))).2]
      exact Nat.div_add_mod n 10

theorem digitsVal_natToStr (n : Nat) : digitsVal (natToStrChars n) = n := by
  unfold natToStrChars
  split
  · rename_i h; rw [h]; rfl
  · exact digitsVal_go n n le_rfl

theorem digitsVal_replicate_zero (k : Nat) : digitsVal (List.replicate k '0') = 0 := by
  induction k with
  | zero => rfl
  | succ k ih =>
    unfold digitsVal at *
    rw [List.replicate_succ, List.foldl_cons]
    simpa using ih

theorem pyIntChars_pad (w n : Nat) : pyIntChars? (padZeroChars w (natToStrChars n)) = some n := by
  have hne' : padZeroChars w (natToStrChars n) ≠ [] := by
    unfold padZeroChars
    intro h
    rcases List.append_eq_nil.mp h with ⟨_, h2⟩
    exact natToStrChars_ne_nil n h2
  have hne : (padZeroChars w (natToStrChars n)).isEmpty = false := by
    simp [List.isEmpty_iff, hne']
  have hall := padZeroChars_all w (natToStrChars n) (natToStrChars_all n)
  have hval : digitsVal (padZeroChars w (natToStrChars n)) = n := by
    unfold padZeroChars digitsVal
    rw [List.foldl_append]
    have h0 : List.foldl (fun a c => 10 * a + (c.toNat - 48)) 0
        (List.replicate (w - (natToStrChars n).length) '0') = 0 := digitsVal_replicate_zero _
    rw [h0]
    exact digitsVal_natToStr n
  simp [pyIntChars?, hne, hall, hval]

theorem natToDigitsRevGo_length (fuel : Nat) :
    ∀ n k, n ≤ fuel → n < 10 ^ k → (natToDigitsRevGo fuel n).length ≤ k := by
  induction fuel with
  | zero => intro n k _ _; simp [natToDigitsRevGo]
  | succ fuel ih =>
    intro n k hn hk
    unfold natToDigitsRevGo
    split
    · simp
    · rename_i hn0
      cases k with
      | zero => simp at hk; omega
      | succ k' =>
        rw [List.length_cons]
        have hdivlt : n / 10 < n := Nat.div_lt_self (by omega) (by omega)
        have hdiv : n / 10 < 10 ^ k' := by
          rw [Nat.div_lt_iff_lt_mul (by omega)]
          calc n < 10 ^ (k' + 1) := hk
            _ = 10 ^ k' * 10 := by ring
        have := ih (n / 10) k' (by omega) hdiv
        omega

theorem natToStrChars_length_le (n k : Nat) (h1 : n < 10 ^ k) (h2 : 1 ≤ k) :
    (natToStrChars n).length ≤ k := by
  unfold natToStrChars
  split
  · simpa using h2
  · rw [List.length_reverse]
    exact natToDigitsRevGo_length n n k le_rfl h1

theorem pad2Chars_length (n : Nat) (h : n ≤ 99) : (pad2Chars n).length = 2 := by
  unfold pad2Chars padZeroChars
  have hlen : (natToStrChars n).length ≤ 2 := natToStrChars_length_le n 2 (by omega) (by omega)
  rw [List.length_append, List.length_replicate]
  omega

theorem allDigit_noDash {cs : List Char} (h : cs.all pyIsDigit = true) : '-' ∉ cs := by
  intro hmem
  rw [List.all_eq_true] at h
  exact absurd (h '-' hmem) (by decide)

theorem pad2Chars_noDash (n : Nat) : '-' ∉ pad2Chars n :=
  allDigit_noDash (padZeroChars_all 2 _ (natToStrChars_all n))

theorem pad5Chars_noDash (n : Nat) : '-' ∉ pad5Chars n :=
  allDigit_noDash (padZeroChars_all 5 _ (natToStrChars_all n))

theorem languageId_noDash : ∀ s ∈ languageIds, '-' ∉ s.data := by decide

/- ------------------------------------------------------------------ -/
/- Helper lemmas: splitting on the dash separator.                     -/
/- ------------------------------------------------------------------ -/

theorem pySplitOn_append (xs rest : List Char) (h : '-' ∉ xs) :
    pySplitOn '-' (xs ++ '-' :: rest) = xs :: pySplitOn '-' rest := by
  induction xs with
  | nil => simp [pySplitOn]
  | cons x xs ih =>
    have hx : ¬ (x = '-') := fun he => h (he ▸ List.mem_cons_self x xs)
    have hxs : '-' ∉ xs := fun hm => h (List.mem_cons_of_mem x hm)
    rw [List.cons_append]
    show (if x = '-' then _ else _) = _
    rw [if_neg hx, ih hxs]

theorem pySplitOn_noDash (xs : List Char) (h : '-' ∉ xs) : pySplitOn '-' xs = [xs] := by
  induction xs with
  | nil => rfl
  | cons x xs ih =>
    have hx : ¬ (x = '-') := fun he => h (he ▸ List.mem_cons_self x xs)
    have hxs : '-' ∉ xs := fun hm => h (List.mem_cons_of_mem x hm)
    show (if x = '-' then _ else _) = _
    rw [if_neg hx, ih hxs]

theorem append_dash_inj :
    ∀ (xs as ys bs : List Char), '-' ∉ xs → '-' ∉ as →
      xs ++ '-' :: ys = as ++ '-' :: bs → xs = as ∧ ys = bs := by
  intro xs
  induction xs with
  | nil =>
    intro as ys bs _ ha heq
    cases as with
    | nil => simpa using heq
    | cons a as' =>
      rw [List.nil_append, List.cons_append] at heq
      have : a = '-' := (List.cons.injEq _ _ _ _ ▸ heq).1.symm
      exact absurd (this ▸ List.mem_cons_self a as') ha
  | cons x xs' ih =>
    intro as ys bs hx ha heq
    cases as with
    | nil =>
      rw [List.nil_append, List.cons_append] at heq
      have : x = '-' := (List.cons.injEq _ _ _ _ ▸ heq).1
      exact absurd (this ▸ List.mem_cons_self x xs') hx
    | cons a as' =>
      rw [List.cons_append, List.cons_append] at heq
      have h1 := (List.cons.injEq _ _ _ _ ▸ heq).1
      have h2 := (List.cons.injEq _ _ _ _ ▸ heq).2
      have hx' : '-' ∉ xs' := fun hm => hx (List.mem_cons_of_mem x hm)
      have ha' : '-' ∉ as' := fun hm => ha (List.mem_cons_of_mem a hm)
      rcases ih as' ys bs hx' ha' h2 with ⟨e1, e2⟩
      exact ⟨by rw [h1, e1], e2⟩

/- ------------------------------------------------------------------ -/
/- Claim C3: the DocId codec round trip.                               -/
/- ------------------------------------------------------------------ -/

theorem toChars_eq (d : ClueWeb22DocId) :
    toChars d = "clueweb22".data ++ '-' ::
      ((d.language.data ++ pad2Chars d.stream ++ pad2Chars d.subdirectory) ++ '-' ::
        (pad2Chars d.file ++ '-' :: pad5Chars d.doc)) := by
  simp [toChars, List.intercalate, List.intersperse]

theorem seg2_noDash (d : ClueWeb22DocId) (hl : d.language ∈ languageIds) :
    '-' ∉ d.language.data ++ pad2Chars d.stream ++ pad2Chars d.subdirectory := by
  intro hm
  rcases List.mem_append.mp hm with hm' | hm'
  · rcases List.mem_append.mp hm' with hm'' | hm''
    · exact languageId_noDash d.language hl hm''
    · exact pad2Chars_noDash d.stream hm''
  · exact pad2Chars_noDash d.subdirectory hm'

theorem pyIntChars_pad2 (n : Nat) : pyIntChars? (pad2Chars n) = some n := pyIntChars_pad 2 n

theorem pyIntChars_pad5 (n : Nat) : pyIntChars? (pad5Chars n) = some n := pyIntChars_pad 5 n

theorem fromParts_correct (d : ClueWeb22DocId) (hl : d.language ∈ languageIds)
    (hs : d.stream ≤ 99) (hd : d.subdirectory ≤ 80) (hf : d.file ≤ 100) :
    fromParts "clueweb22".data
      (d.language.data ++ pad2Chars d.stream ++ pad2Chars d.subdirectory)
      (pad2Chars d.file) (pad5Chars d.doc) = some d := by
  have h2s : (pad2Chars d.stream).length = 2 := pad2Chars_length _ hs
  have h2d : (pad2Chars d.subdirectory).length = 2 := pad2Chars_length _ (by omega)
  have hlang : pySliceToNeg 4
      (d.language.data ++ pad2Chars d.stream ++ pad2Chars d.subdirectory) = d.language.data := by
    unfold pySliceToNeg
    have hlen : (d.language.data ++ pad2Chars d.stream ++ pad2Chars d.subdirectory).length - 4
        = d.language.data.length := by
      simp [List.length_append, h2s, h2d]
    rw [hlen, List.append_assoc]
    exact List.take_left _ _
  have hstream : pySliceNegNeg 4 2
      (d.language.data ++ pad2Chars d.stream ++ pad2Chars d.subdirectory)
      = pad2Chars d.stream := by
    unfold pySliceNegNeg
    have hlen2 : (d.language.data ++ pad2Chars d.stream ++ pad2Chars d.subdirectory).length - 2
        = (d.language.data ++ pad2Chars d.stream).length := by
      simp [List.length_append, h2s, h2d]
    have hlen4 : (d.language.data ++ pad2Chars d.stream ++ pad2Chars d.subdirectory).length - 4
        = d.language.data.length := by
      simp [List.length_append, h2s, h2d]
    rw [hlen2, hlen4, List.take_left, List.drop_left]
  have hsubdir : pySliceFromNeg 2
      (d.language.data ++ pad2Chars d.stream ++ pad2Chars d.subdirectory)
      = pad2Chars d.subdirectory := by
    unfold pySliceFromNeg
    have hlen2 : (d.language.data ++ pad2Chars d.stream ++ pad2Chars d.subdirectory).length - 2
        = (d.language.data ++ pad2Chars d.stream).length := by
      simp [List.length_append, h2s, h2d]
    rw [hlen2, List.drop_left]
  have hcontains : languageIds.contains (⟨d.language.data⟩ : String) = true := by
    show languageIds.contains d.language = true
    exact List.elem_eq_true_of_mem hl
  simp only [fromParts, hlang, hstream, hsubdir, hcontains, pyIntChars_pad2, pyIntChars_pad5]
  rw [if_neg (by omega : ¬ d.subdirectory > 80), if_neg (by omega : ¬ d.file > 100)]
  rw [if_neg (fun h => h rfl), if_neg (fun h => h trivial)]

/-- C3, corrected: for every DocId with a known language, stream at most
99, subdirectory at most 80 and file at most 100, parsing the formatted
string returns the DocId unchanged (hence formatting is a bijection onto
the canonical identifier strings, and `format(parse(s)) = s` exactly for
those canonical strings); the parser, however, also accepts non-canonical
spellings, for which `format(parse(s)) ≠ s` (see the counterexample). -/
theorem c3_roundtrip (d : ClueWeb22DocId) (hl : d.language ∈ languageIds)
    (hs : d.stream ≤ 99) (hd : d.subdirectory ≤ 80) (hf : d.file ≤ 100) :
    docIdFromString (docIdToString d) = some d := by
  show fromChars (toChars d) = some d
  rw [toChars_eq]
  unfold fromChars
  rw [pySplitOn_append _ _ (by decide), pySplitOn_append _ _ (seg2_noDash d hl),
    pySplitOn_append _ _ (pad2Chars_noDash d.file), pySplitOn_noDash _ (pad5Chars_noDash d.doc)]
  exact fromParts_correct d hl hs hd hf

/-- C3 witness: the round trip evaluated at `clueweb22-en0000-00-00000`. -/
theorem c3_roundtrip_witness :
    docIdFromString (docIdToString ⟨"en", 0, 0, 0, 0⟩) = some ⟨"en", 0, 0, 0, 0⟩ :=
  c3_roundtrip ⟨"en", 0, 0, 0, 0⟩ (by decide) (by decide) (by decide) (by decide)

/-- C3 counterexample: the parser accepts the non-canonical spelling
`clueweb22-en0000-0-00000` (unpadded file segment), but formatting the
parsed DocId yields the canonical `clueweb22-en0000-00-00000`, so
`format(parse(s)) = s` fails for this accepted string. -/
theorem c3_counterexample :
    docIdFromString "clueweb22-en0000-0-00000" = some ⟨"en", 0, 0, 0, 0⟩ ∧
    docIdToString ⟨"en", 0, 0, 0, 0⟩ ≠ "clueweb22-en0000-0-00000" := by
  constructor
  · decide
  · decide

/- ------------------------------------------------------------------ -/
/- Claim C9: ranges of accepted identifier components.                 -/
/- ------------------------------------------------------------------ -/

theorem digitsVal_foldl_lt :
    ∀ (cs : List Char) (a : Nat), cs.all pyIsDigit = true →
      List.foldl (fun a c => 10 * a + (c.toNat - 48)) a cs < (a + 1) * 10 ^ cs.length := by
  intro cs
  induction cs with
  | nil => intro a _; simp
  | cons c cs ih =>
    intro a h
    rw [List.all_cons] at h
    obtain ⟨hc, hcs⟩ := Bool.and_eq_true_iff.mp h
    have hd : c.toNat - 48 ≤ 9 := by
      simp only [pyIsDigit, Bool.and_eq_true, decide_eq_true_eq] at hc
      omega
    rw [List.foldl_cons, List.length_cons]
    calc List.foldl (fun a c => 10 * a + (c.toNat - 48)) (10 * a + (c.toNat - 48)) cs
        < (10 * a + (c.toNat - 48) + 1) * 10 ^ cs.length := ih _ hcs
      _ ≤ ((a + 1) * 10) * 10 ^ cs.length := by
          have : 10 * a + (c.toNat - 48) + 1 ≤ (a + 1) * 10 := by omega
          exact Nat.mul_le_mul_right _ this
      _ = (a + 1) * 10 ^ (cs.length + 1) := by ring

theorem pyIntChars_lt (cs : List Char) (n : Nat) (h : pyIntChars? cs = some n) :
    n < 10 ^ cs.length := by
  unfold pyIntChars? at h
  split at h
  · exact absurd h (by simp)
  · split at h
    · rename_i hall
      have := digitsVal_foldl_lt cs 0 hall
      rw [Nat.one_mul] at this
      have hn : n = digitsVal cs := by
        injection h with h'
        exact h'.symm
      rw [hn]
      exact this
    · exact absurd h (by simp)

theorem sliceNegNeg_length (a b : Nat) (l : List Char) :
    (pySliceNegNeg a b l).length ≤ a - b := by
  unfold pySliceNegNeg
  rw [List.length_drop, List.length_take]
  omega

theorem fromParts_ranges (dataset seg2 fileSeg docSeg : List Char) (d : ClueWeb22DocId)
    (h : fromParts dataset seg2 fileSeg docSeg = some d) :
    d.language ∈ languageIds ∧ d.stream ≤ 99 ∧ d.subdirectory ≤ 80 ∧ d.file ≤ 100 := by
  unfold fromParts at h
  split at h
  · exact absurd h (by simp)
  · split at h
    · exact absurd h (by simp)
    · rename_i hcontains
      split at h
      · exact absurd h (by simp)
      · rename_i streamId hstream
        split at h
        · exact absurd h (by simp)
        · rename_i subdirectoryId hsubdir
          split at h
          · exact absurd h (by simp)
          · rename_i hsub80
            split at h
            · exact absurd h (by simp)
            · rename_i fileId hfile
              split at h
              · exact absurd h (by simp)
              · rename_i hfile100
                split at h
                · exact absurd h (by simp)
                · rename_i doc hdoc
                  injection h with h'
                  have hlang : d.language = ⟨pySliceToNeg 4 seg2⟩ := by rw [← h']
                  have hstreamv : d.stream = streamId := by rw [← h']
                  have hsubv : d.subdirectory = subdirectoryId := by rw [← h']
                  have hfilev : d.file = fileId := by rw [← h']
                  refine ⟨?_, ?_, ?_, ?_⟩
                  · rw [hlang]
                    rw [Decidable.not_not] at hcontains
                    simpa using hcontains
                  · have hlen : (pySliceNegNeg 4 2 seg2).length ≤ 2 := sliceNegNeg_length 4 2 seg2
                    have := pyIntChars_lt _ _ hstream
                    have hpow : 10 ^ (pySliceNegNeg 4 2 seg2).length ≤ 10 ^ 2 :=
                      Nat.pow_le_pow_right (by omega) hlen
                    omega
                  · omega
                  · omega

/-- C9, corrected: every accepted identifier has a known language, stream
in 0–99, subdirectory in 0–80 (not 0–79: the source rejects only
`subdirectory > 80`, so 80 is accepted) and file in 0–100 (not 0–99: only
`file > 100` is rejected); the doc component is a non-negative integer by
construction.  Conversely, identifiers whose subdirectory exceeds 80 or
whose file exceeds 100 are rejected. -/
theorem c9_ranges :
    (∀ (cs : List Char) (d : ClueWeb22DocId), fromChars cs = some d →
      d.language ∈ languageIds ∧ d.stream ≤ 99 ∧ d.subdirectory ≤ 80 ∧ d.file ≤ 100) ∧
    (∀ d : ClueWeb22DocId, d.language ∈ languageIds → d.stream ≤ 99 → d.subdirectory ≤ 99 →
      (d.subdirectory > 80 ∨ d.file > 100) → docIdFromString (docIdToString d) = none) := by
  constructor
  · intro cs d h
    unfold fromChars at h
    split at h
    · exact fromParts_ranges _ _ _ _ d h
    · exact absurd h (by simp)
  · intro d hl hs hd hviol
    show fromChars (toChars d) = none
    rw [toChars_eq]
    unfold fromChars
    rw [pySplitOn_append _ _ (by decide), pySplitOn_append _ _ (seg2_noDash d hl),
      pySplitOn_append _ _ (pad2Chars_noDash d.file), pySplitOn_noDash _ (pad5Chars_noDash d.doc)]
    have h2s : (pad2Chars d.stream).length = 2 := pad2Chars_length _ hs
    have h2d : (pad2Chars d.subdirectory).length = 2 := pad2Chars_length _ hd
    have hstream : pySliceNegNeg 4 2
        (d.language.data ++ pad2Chars d.stream ++ pad2Chars d.subdirectory)
        = pad2Chars d.stream := by
      unfold pySliceNegNeg
      have hlen2 : (d.language.data ++ pad2Chars d.stream ++ pad2Chars d.subdirectory).length - 2
          = (d.language.data ++ pad2Chars d.stream).length := by
        simp [List.length_append, h2s, h2d]
      have hlen4 : (d.language.data ++ pad2Chars d.stream ++ pad2Chars d.subdirectory).length - 4
          = d.language.data.length := by
        simp [List.length_append, h2s, h2d]
      rw [hlen2, hlen4, List.take_left, List.drop_left]
    have hsubdir : pySliceFromNeg 2
        (d.language.data ++ pad2Chars d.stream ++ pad2Chars d.subdirectory)
        = pad2Chars d.subdirectory := by
      unfold pySliceFromNeg
      have hlen2 : (d.language.data ++ pad2Chars d.stream ++ pad2Chars d.subdirectory).length - 2
          = (d.language.data ++ pad2Chars d.stream).length := by
        simp [List.length_append, h2s, h2d]
      rw [hlen2, List.drop_left]
    have hlang : pySliceToNeg 4
        (d.language.data ++ pad2Chars d.stream ++ pad2Chars d.subdirectory)
        = d.language.data := by
      unfold pySliceToNeg
      have hlen : (d.language.data ++ pad2Chars d.stream ++ pad2Chars d.subdirectory).length - 4
          = d.language.data.length := by
        simp [List.length_append, h2s, h2d]
      rw [hlen, List.append_assoc]
      exact List.take_left _ _
    have hcontains : languageIds.contains (⟨d.language.data⟩ : String) = true := by
      show languageIds.contains d.language = true
      exact List.elem_eq_true_of_mem hl
    simp only [fromParts, hlang, hstream, hsubdir, hcontains, pyIntChars_pad2, pyIntChars_pad5]
    rw [if_neg (fun h => h rfl), if_neg (fun h => h trivial)]
    by_cases hsub : d.subdirectory > 80
    · rw [if_pos hsub]
    · rw [if_neg hsub]
      have hfile : d.file > 100 := by
        rcases hviol with hv | hv
        · exact absurd hv hsub
        · exact hv
      rw [if_pos hfile]

/-- C9 witness: subdirectory 80 is accepted with its components in the
corrected ranges, and subdirectory 81 is rejected. -/
theorem c9_ranges_witness :
    ((⟨"en", 0, 80, 0, 0⟩ : ClueWeb22DocId).language ∈ languageIds ∧
      (⟨"en", 0, 80, 0, 0⟩ : ClueWeb22DocId).stream ≤ 99 ∧
      (⟨"en", 0, 80, 0, 0⟩ : ClueWeb22DocId).subdirectory ≤ 80 ∧
      (⟨"en", 0, 80, 0, 0⟩ : ClueWeb22DocId).file ≤ 100) ∧
    docIdFromString (docIdToString (⟨"en", 0, 81, 0, 0⟩ : ClueWeb22DocId)) = none :=
  ⟨c9_ranges.1 "clueweb22-en0080-00-00000".data ⟨"en", 0, 80, 0, 0⟩ (by decide),
   c9_ranges.2 ⟨"en", 0, 81, 0, 0⟩ (by decide) (by decide) (by decide) (Or.inl (by decide))⟩

/-- C9 counterexample: `clueweb22-en0080-00-00000` (subdirectory 80, above
the claimed 0–79 range) and `clueweb22-en0000-100-00000` (file 100, above
the claimed 0–99 range) are both accepted by the parser. -/
theorem c9_counterexample :
    docIdFromString "clueweb22-en0080-00-00000" = some ⟨"en", 0, 80, 0, 0⟩ ∧
    ¬ (80 ≤ 79) ∧
    docIdFromString "clueweb22-en0000-100-00000" = some ⟨"en", 0, 0, 100, 0⟩ ∧
    ¬ (100 ≤ 99) := by
  refine ⟨by decide, by decide, by decide, by decide⟩


/- ------------------------------------------------------------------ -/
/- Claim C10: scoping of the offset-sidecar missing-newline repair.    -/
/- ------------------------------------------------------------------ -/

theorem sliceToNeg_append (xs ys : List Char) : pySliceToNeg ys.length (xs ++ ys) = xs := by
  unfold pySliceToNeg
  rw [List.length_append]
  have h : xs.length + ys.length - ys.length = xs.length := by omega
  rw [h]
  exact List.take_left xs ys

theorem shardName_decomp (fid : ClueWeb22FileId) (fmt : ClueWeb22Format) :
    shardNameChars fid fmt =
      (fid.language.data ++ pad2Chars fid.stream ++ pad2Chars fid.subdirectory
        ++ '-' :: pad2Chars fid.file) ++ (formatExtension fmt).data := by
  unfold shardNameChars
  simp [List.append_assoc]

theorem offsetsName_eq (fid : ClueWeb22FileId) (fmt : ClueWeb22Format) (h : fmt ∈ gzipFormats) :
    offsetsNameChars fid fmt =
      (fid.language.data ++ pad2Chars fid.stream ++ pad2Chars fid.subdirectory
        ++ '-' :: pad2Chars fid.file) ++ ((formatOffsetExtension fmt).getD "").data := by
  fin_cases h <;>
    · show pySliceToNeg _ (shardNameChars _ _) ++ _ = _
      rw [shardName_decomp, sliceToNeg_append]
      rfl

theorem pad2_eq_00 : ∀ n, n ≤ 99 → (pad2Chars n = "00".data ↔ n = 0) := by decide

theorem pad2_eq_09 : ∀ n, n ≤ 99 → (pad2Chars n = "09".data ↔ n = 9) := by decide

theorem pad2_eq_57 : ∀ n, n ≤ 99 → (pad2Chars n = "57".data ↔ n = 57) := by decide

theorem offsetsName_target_iff (fid : ClueWeb22FileId) (fmt : ClueWeb22Format)
    (hl : fid.language ∈ languageIds) (hs : fid.stream ≤ 99) (hd : fid.subdirectory ≤ 99)
    (hf : fid.file ≤ 99) (hg : fmt ∈ gzipFormats) :
    offsetsNameChars fid fmt = "ja0009-57.warc.offset".data ↔
      (fid = (⟨"ja", 0, 9, 57⟩ : ClueWeb22FileId) ∧ fmt = ClueWeb22Format.HTML) := by
  have h2s : (pad2Chars fid.stream).length = 2 := pad2Chars_length _ hs
  have h2d : (pad2Chars fid.subdirectory).length = 2 := pad2Chars_length _ hd
  have h2f : (pad2Chars fid.file).length = 2 := pad2Chars_length _ hf
  have hnd : '-' ∉ fid.language.data ++ pad2Chars fid.stream ++ pad2Chars fid.subdirectory := by
    intro hm
    rcases List.mem_append.mp hm with hm' | hm'
    · rcases List.mem_append.mp hm' with hm'' | hm''
      · exact languageId_noDash fid.language hl hm''
      · exact pad2Chars_noDash fid.stream hm''
    · exact pad2Chars_noDash fid.subdirectory hm'
  constructor
  · intro heq
    rw [offsetsName_eq fid fmt hg] at heq
    fin_cases hg
    · -- HTML
      have htgt : "ja0009-57.warc.offset".data = "ja0009-57".data ++ ".warc.offset".data := rfl
      rw [htgt] at heq
      have hbase : (fid.language.data ++ pad2Chars fid.stream ++ pad2Chars fid.subdirectory
          ++ '-' :: pad2Chars fid.file) = "ja0009-57".data := List.append_cancel_right heq
      have hsplit : "ja0009-57".data = "ja0009".data ++ '-' :: "57".data := rfl
      rw [hsplit] at hbase
      rcases append_dash_inj _ _ _ _ hnd (by decide) hbase with ⟨hseg, hp2f⟩
      have hfile : fid.file = 57 := (pad2_eq_57 fid.file hf).mp hp2f
      have hlanglen : fid.language.data.length = 2 := by
        have hl6 := congrArg List.length hseg
        rw [List.length_append, List.length_append, h2s, h2d] at hl6
        have hrhs : ("ja0009".data).length = 6 := rfl
        omega
      have hlen4 : (fid.language.data ++ pad2Chars fid.stream).length = 4 := by
        rw [List.length_append, hlanglen, h2s]
      have hsub : pad2Chars fid.subdirectory = "09".data := by
        have hdrop := congrArg (List.drop (fid.language.data ++ pad2Chars fid.stream).length) hseg
        rw [List.drop_left, hlen4] at hdrop
        exact hdrop
      have hstream : pad2Chars fid.stream = "00".data := by
        have htake := congrArg (List.take (fid.language.data ++ pad2Chars fid.stream).length) hseg
        rw [List.take_left, hlen4] at htake
        have hdrop2 := congrArg (List.drop fid.language.data.length) htake
        rw [List.drop_left, hlanglen] at hdrop2
        exact hdrop2
      have hlang : fid.language = "ja" := by
        have hseg' : fid.language.data ++ (pad2Chars fid.stream ++ pad2Chars fid.subdirectory)
            = "ja0009".data := by
          rw [← List.append_assoc]
          exact hseg
        have htake := congrArg (List.take fid.language.data.length) hseg'
        rw [List.take_left, hlanglen] at htake
        exact congrArg String.mk htake
      refine ⟨?_, rfl⟩
      obtain ⟨flang, fstream, fsub, ffile⟩ := fid
      simp only at hlang hfile hstream hsub hs hd
      have hstream' : fstream = 0 := (pad2_eq_00 fstream hs).mp hstream
      have hsub' : fsub = 9 := (pad2_eq_09 fsub hd).mp hsub
      rw [hlang, hstream', hsub', hfile]
    · -- INLINK: impossible
      have htgt : "ja0009-57.warc.offset".data = "ja0009-57.warc".data ++ ".offset".data := rfl
      rw [htgt] at heq
      have hbase : (fid.language.data ++ pad2Chars fid.stream ++ pad2Chars fid.subdirectory
          ++ '-' :: pad2Chars fid.file) = "ja0009-57.warc".data := List.append_cancel_right heq
      have hsplit : "ja0009-57.warc".data = "ja0009".data ++ '-' :: "57.warc".data := rfl
      rw [hsplit] at hbase
      rcases append_dash_inj _ _ _ _ hnd (by decide) hbase with ⟨_, hp2f⟩
      rw [hp2f] at h2f
      simp at h2f
    · -- OUTLINK: impossible
      have htgt : "ja0009-57.warc.offset".data = "ja0009-57.warc".data ++ ".offset".data := rfl
      rw [htgt] at heq
      have hbase : (fid.language.data ++ pad2Chars fid.stream ++ pad2Chars fid.subdirectory
          ++ '-' :: pad2Chars fid.file) = "ja0009-57.warc".data := List.append_cancel_right heq
      have hsplit : "ja0009-57.warc".data = "ja0009".data ++ '-' :: "57.warc".data := rfl
      rw [hsplit] at hbase
      rcases append_dash_inj _ _ _ _ hnd (by decide) hbase with ⟨_, hp2f⟩
      rw [hp2f] at h2f
      simp at h2f
    · -- TXT: impossible
      have htgt : "ja0009-57.warc.offset".data = "ja0009-57.warc".data ++ ".offset".data := rfl
      rw [htgt] at heq
      have hbase : (fid.language.data ++ pad2Chars fid.stream ++ pad2Chars fid.subdirectory
          ++ '-' :: pad2Chars fid.file) = "ja0009-57.warc".data := List.append_cancel_right heq
      have hsplit : "ja0009-57.warc".data = "ja0009".data ++ '-' :: "57.warc".data := rfl
      rw [hsplit] at hbase
      rcases append_dash_inj _ _ _ _ hnd (by decide) hbase with ⟨_, hp2f⟩
      rw [hp2f] at h2f
      simp at h2f
  · rintro ⟨h1, h2⟩
    rw [h1, h2]
    decide

/-- C10: for every GZIP-format shard with in-range FileId components, the
missing-newline repair of `_read_offsets` fires exactly when the sidecar
is the one of the HTML shard `ja/ja00/ja0009/ja0009-57.warc` (FileId
`(ja, 0, 9, 57)`, format HTML); for every other sidecar each line is
parsed as one integer unchanged. -/
theorem c10_offsets (fid : ClueWeb22FileId) (fmt : ClueWeb22Format) (lines : List (List Char))
    (hl : fid.language ∈ languageIds) (hs : fid.stream ≤ 99) (hd : fid.subdirectory ≤ 99)
    (hf : fid.file ≤ 99) (hg : fmt ∈ gzipFormats) :
    readOffsets (offsetsNameChars fid fmt) lines =
      (if fid = (⟨"ja", 0, 9, 57⟩ : ClueWeb22FileId) ∧ fmt = ClueWeb22Format.HTML
        then fixMissingLineBreak lines else lines).mapM pyIntLine? := by
  simp only [readOffsets]
  by_cases hcond : fid = (⟨"ja", 0, 9, 57⟩ : ClueWeb22FileId) ∧ fmt = ClueWeb22Format.HTML
  · rw [if_pos hcond, if_pos ((offsetsName_target_iff fid fmt hl hs hd hf hg).mpr hcond)]
  · rw [if_neg hcond, if_neg (fun he => hcond ((offsetsName_target_iff fid fmt hl hs hd hf hg).mp he))]

/-- C10 witness: the repair fires on the `ja0009-57` HTML sidecar,
recovering the two run-on offsets; on the TXT sidecar of the same FileId
the run-on line is parsed unchanged, as one 20-digit integer. -/
theorem c10_offsets_witness :
    readOffsets (offsetsNameChars ⟨"ja", 0, 9, 57⟩ ClueWeb22Format.HTML)
      ["04723330100472349245\n".data] = some [472333010, 472349245] ∧
    readOffsets (offsetsNameChars ⟨"ja", 0, 9, 57⟩ ClueWeb22Format.TXT)
      ["04723330100472349245\n".data] = some [4723330100472349245] :=
  ⟨(c10_offsets ⟨"ja", 0, 9, 57⟩ ClueWeb22Format.HTML ["04723330100472349245\n".data]
      (by decide) (by decide) (by decide) (by decide) (by decide)).trans (by decide),
   (c10_offsets ⟨"ja", 0, 9, 57⟩ ClueWeb22Format.TXT ["04723330100472349245\n".data]
      (by decide) (by decide) (by decide) (by decide) (by decide)).trans (by decide)⟩

/- ------------------------------------------------------------------ -/
/- Claims C1 and C2: global-index slicing.                             -/
/- ------------------------------------------------------------------ -/

/-- C1: the slice planner is broken for `step > 1`.  With three shards of
one record each and the slice `(start, stop, step) = (0, 3, 2)`, the full
iteration restricted per the claim yields the records at global indices 0
and 2, but the iterator yields only index 0: the shard at `[1, 2)`
overlaps the slice yet selects no index, and the `continue` taken in that
case skips the `index_offset += count` bookkeeping, so the third shard is
re-examined at the stale offset 1 and misclassified. -/
theorem c1_slice_eval :
    sliceSelect ([[0], [1], [2]] : List (List Nat)) 0 3 2 = [0] ∧
    pySliceList (([[0], [1], [2]] : List (List Nat)).flatten) 0 3 2 = [0, 2] ∧
    sliceSelect ([[0], [1], [2]] : List (List Nat)) 0 3 2 ≠
      pySliceList (([[0], [1], [2]] : List (List Nat)).flatten) 0 3 2 := by
  refine ⟨by decide, by decide, by decide⟩

theorem overlap_false_of_empty_slice (start stop lo hi : Nat) (h : stop ≤ start) :
    overlapsSlice start stop lo hi = false := by
  unfold overlapsSlice
  simp only [decide_eq_false_iff_not]
  omega

theorem sliceOpensGo_empty_slice (start stop step : Nat) (h : stop ≤ start) :
    ∀ (counts : List Nat) (k off : Nat), sliceOpensGo start stop step counts k off = [] := by
  intro counts
  induction counts with
  | nil => intro k off; rfl
  | cons count rest ih =>
    intro k off
    unfold sliceOpensGo
    rw [overlap_false_of_empty_slice start stop off (off + count) h]
    exact ih (k + 1) (off + count)

theorem inSlice_of_overlap (start stop lo : Nat) (count : Nat)
    (h : overlapsSlice start stop lo (lo + count) = true) :
    ((List.range count).filter fun i => inSlice start stop 1 (lo + i)).isEmpty = false := by
  unfold overlapsSlice at h
  rw [decide_eq_true_eq] at h
  have hwit : max lo start - lo < count := by omega
  have hmem : (max lo start - lo) ∈ (List.range count).filter
      fun i => inSlice start stop 1 (lo + i) := by
    rw [List.mem_filter]
    refine ⟨List.mem_range.mpr hwit, ?_⟩
    unfold inSlice
    simp only [Bool.and_eq_true, decide_eq_true_eq, beq_iff_eq]
    omega
  rcases hlist : (List.range count).filter (fun i => inSlice start stop 1 (lo + i)) with _ | _
  · rw [hlist] at hmem
    exact absurd hmem (List.not_mem_nil _)
  · rfl

theorem empty_filter_of_no_overlap (start stop step lo : Nat) (count : Nat)
    (h : overlapsSlice start stop lo (lo + count) = false) :
    ((List.range count).filter fun i => inSlice start stop step (lo + i)) = [] := by
  unfold overlapsSlice at h
  rw [decide_eq_false_iff_not] at h
  rw [List.filter_eq_nil_iff]
  intro i hi
  rw [List.mem_range] at hi
  unfold inSlice
  intro hcontra
  rw [Bool.and_eq_true, Bool.and_eq_true, decide_eq_true_eq, decide_eq_true_eq] at hcontra
  omega

theorem sliceOpensGo_step_one (start stop : Nat) :
    ∀ (counts : List Nat) (k off : Nat),
      sliceOpensGo start stop 1 counts k off = openedClaimGo start stop 1 counts k off := by
  intro counts
  induction counts with
  | nil => intro k off; rfl
  | cons count rest ih =>
    intro k off
    unfold sliceOpensGo openedClaimGo
    rcases hov : overlapsSlice start stop off (off + count) with hfalse | htrue
    · rw [empty_filter_of_no_overlap start stop 1 off count hov]
      simp only [Bool.not_false, if_true, List.isEmpty_nil]
      rw [ih (k + 1) (off + count)]
      rfl
    · rw [inSlice_of_overlap start stop off count hov]
      simp only [Bool.not_true, if_false]
      rw [ih (k + 1) (off + count)]
      rfl

/-- C2, corrected: the raw shard file is opened as soon as the shard's
range (under the source's offset bookkeeping) overlaps `[start, stop)` —
an overlapping shard with an empty selected index set (possible when
`step > 1`) is opened and then skipped without reading; an empty slice
opens no shard at all; and for `step = 1` the claim as stated holds: a
shard is opened exactly when its selected index set is non-empty. -/
theorem c2_opens :
    (∀ (counts : List Nat) (start stop : Nat),
      sliceOpens counts start stop 1 = openedClaim counts start stop 1) ∧
    (∀ (counts : List Nat) (start stop step : Nat), stop ≤ start →
      sliceOpens counts start stop step = []) := by
  constructor
  · intro counts start stop
    exact sliceOpensGo_step_one start stop counts 0 0
  · intro counts start stop step h
    exact sliceOpensGo_empty_slice start stop step h counts 0 0

/-- C2 witness: for a full `step = 1` slice over two one-record shards
both shards are opened (matching the claim's selected-index criterion),
and the empty slice `(2, 2)` opens none. -/
theorem c2_opens_witness :
    sliceOpens [1, 1] 0 2 1 = openedClaim [1, 1] 0 2 1 ∧ sliceOpens [1, 1] 2 2 2 = [] :=
  ⟨c2_opens.1 [1, 1] 0 2, c2_opens.2 [1, 1] 2 2 2 (by decide)⟩

/-- C2 counterexample: with two one-record shards and slice `(0, 2, 2)`,
the second shard overlaps `[0, 2)` but selects no index; the claim says
it is skipped without opening the file, yet the source opens it (the
`open` precedes the index-set computation), so the opened-shard list is
`[0, 1]`, not the claimed `[0]`. -/
theorem c2_opens_counterexample :
    sliceOpens [1, 1] 0 2 2 = [0, 1] ∧ openedClaim [1, 1] 0 2 2 = [0] ∧
    sliceOpens [1, 1] 0 2 2 ≠ openedClaim [1, 1] 0 2 2 := by
  refine ⟨by decide, by decide, by decide⟩

/- ------------------------------------------------------------------ -/
/- Claim C4: get_many grouping.                                        -/
/- ------------------------------------------------------------------ -/

theorem groupbyRuns_flatten {α β : Type} [DecidableEq β] (key : α → β) :
    ∀ l : List α, ((groupbyRuns key l).map Prod.snd).flatten = l := by
  intro l
  induction l with
  | nil => rfl
  | cons x xs ih =>
    rcases hg : groupbyRuns key xs with _ | ⟨⟨k, run⟩, rest⟩
    · rw [hg] at ih
      simp only [List.map_nil, List.flatten_nil] at ih
      simp only [groupbyRuns, hg]
      simp [← ih]
    · rw [hg] at ih
      simp only [groupbyRuns, hg]
      by_cases hk : key x = k
      · rw [if_pos hk]
        simp only [List.map_cons, List.flatten_cons] at ih ⊢
        rw [List.cons_append, ih]
      · rw [if_neg hk]
        simp only [List.map_cons, List.flatten_cons] at ih ⊢
        rw [ih]
        rfl

theorem groupbyRuns_keys {α β : Type} [DecidableEq β] (key : α → β) :
    ∀ l : List α, ∀ p ∈ groupbyRuns key l, p.snd ≠ [] ∧ ∀ a ∈ p.snd, key a = p.fst := by
  intro l
  induction l with
  | nil => intro p hp; exact absurd hp (List.not_mem_nil p)
  | cons x xs ih =>
    intro p hp
    rcases hg : groupbyRuns key xs with _ | ⟨⟨k, run⟩, rest⟩ <;>
      simp only [groupbyRuns, hg] at hp
    · rcases List.mem_singleton.mp hp with rfl
      refine ⟨by simp, ?_⟩
      intro a ha
      rcases List.mem_singleton.mp ha with rfl
      rfl
    · by_cases hk : key x = k
      · rw [if_pos hk] at hp
        rcases List.mem_cons.mp hp with rfl | hp'
        · refine ⟨by simp, ?_⟩
          intro a ha
          rcases List.mem_cons.mp ha with rfl | ha'
          · exact hk
          · exact ((ih ⟨k, run⟩ (hg ▸ List.mem_cons_self _ _)).2 a ha')
        · exact ih p (hg ▸ List.mem_cons_of_mem _ hp')
      · rw [if_neg hk] at hp
        rcases List.mem_cons.mp hp with rfl | hp'
        · refine ⟨by simp, ?_⟩
          intro a ha
          rcases List.mem_singleton.mp ha with rfl
          rfl
        · exact ih p (hg ▸ hp')

theorem groupbyRuns_chain {α β : Type} [DecidableEq β] (key : α → β) :
    ∀ l : List α, List.Chain' (fun p q => p.fst ≠ q.fst) (groupbyRuns key l) := by
  intro l
  induction l with
  | nil => exact List.chain'_nil
  | cons x xs ih =>
    rcases hg : groupbyRuns key xs with _ | ⟨⟨k, run⟩, rest⟩ <;>
      rw [hg] at ih <;> simp only [groupbyRuns, hg]
    · exact List.chain'_singleton _
    · by_cases hk : key x = k
      · rw [if_pos hk]
        rw [List.chain'_cons'] at ih ⊢
        exact ih
      · rw [if_neg hk]
        rw [List.chain'_cons]
        exact ⟨hk, ih⟩

/-- C4, corrected: `get_many_iter` materialises the parsed identifiers
into a Python set, whose iteration order is arbitrary (it need not
preserve first-seen input order), and `itertools.groupby` then groups
only consecutive equal shard paths of that enumeration: one shard file is
opened per maximal run (a shard whose identifiers are non-adjacent in the
enumeration is opened once per run, i.e. possibly several times), each
run is non-empty and homogeneous in its shard path, adjacent runs have
distinct paths, and the runs concatenate back to the enumeration, so
documents come out in enumeration-grouping order. -/
theorem c4_grouping (fmt : ClueWeb22Format) (enumeration : List ClueWeb22DocId) :
    ((docstoreFilePaths fmt enumeration).map Prod.snd).flatten = enumeration ∧
    (∀ p ∈ docstoreFilePaths fmt enumeration, p.snd ≠ [] ∧
      ∀ d ∈ p.snd, formatFilePathChars fmt d = p.fst) ∧
    List.Chain' (fun p q => p.fst ≠ q.fst) (docstoreFilePaths fmt enumeration) :=
  ⟨groupbyRuns_flatten (formatFilePathChars fmt) enumeration,
   groupbyRuns_keys (formatFilePathChars fmt) enumeration,
   groupbyRuns_chain (formatFilePathChars fmt) enumeration⟩

/-- C4 witness: the grouping evaluated on a single-identifier
enumeration, with the shard path computed explicitly. -/
theorem c4_grouping_witness :
    ((docstoreFilePaths ClueWeb22Format.TXT [⟨"en", 0, 0, 0, 0⟩]).map Prod.snd).flatten
      = [⟨"en", 0, 0, 0, 0⟩] ∧
    formatFilePathChars ClueWeb22Format.TXT ⟨"en", 0, 0, 0, 0⟩
      = "txt/en/en00/en0000/en0000-00.json.gz".data :=
  ⟨(c4_grouping ClueWeb22Format.TXT [⟨"en", 0, 0, 0, 0⟩]).1,
   (((c4_grouping ClueWeb22Format.TXT [⟨"en", 0, 0, 0, 0⟩]).2.1
      ("txt/en/en00/en0000/en0000-00.json.gz".data, [⟨"en", 0, 0, 0, 0⟩]) (by decide)).2
      ⟨"en", 0, 0, 0, 0⟩ (by decide))⟩

/-- C4 counterexample: for the input
`[en0000-00-00000, en0000-01-00000, en0000-00-00001]` the enumeration that
lists the set in exactly that (valid) order makes `groupby` open shard
`en0000-00` twice — the opened-path list is not the claimed
first-seen-order grouping with one open per shard. -/
theorem c4_counterexample :
    validEnum ["clueweb22-en0000-00-00000", "clueweb22-en0000-01-00000",
        "clueweb22-en0000-00-00001"]
      [⟨"en", 0, 0, 0, 0⟩, ⟨"en", 0, 0, 1, 0⟩, ⟨"en", 0, 0, 0, 1⟩] = true ∧
    opensOf ClueWeb22Format.TXT [⟨"en", 0, 0, 0, 0⟩, ⟨"en", 0, 0, 1, 0⟩, ⟨"en", 0, 0, 0, 1⟩]
      ≠ firstSeenKeys (formatFilePathChars ClueWeb22Format.TXT)
        [⟨"en", 0, 0, 0, 0⟩, ⟨"en", 0, 0, 1, 0⟩, ⟨"en", 0, 0, 0, 1⟩] ∧
    ¬ (opensOf ClueWeb22Format.TXT
        [⟨"en", 0, 0, 0, 0⟩, ⟨"en", 0, 0, 1, 0⟩, ⟨"en", 0, 0, 0, 1⟩]).Nodup := by
  refine ⟨by decide, by decide, by decide⟩

/- ------------------------------------------------------------------ -/
/- Claim C5: docs_count from diff-format counts.                       -/
/- ------------------------------------------------------------------ -/

theorem subsetViews_extends_rec (s : ClueWeb22Subset) :
    subsetViews s = s :: (match subsetExtends s with
      | some t => subsetViews t
      | none => []) := by
  cases s <;> rfl

/-- C5: `docs_count` sums the per-file counts of one arbitrarily selected
diff format of the subset (any `pick` in `diff_formats`), and because
subset B's diff-format set is empty (every B format also belongs to the
A/L views while JPG stays commented out), B falls back to the HTML format
counts; L's and A's diff-format sets are as computed from the
extends-closure. -/
theorem c5_docs_count :
    ∀ (catalog : ClueWeb22Format → List (ClueWeb22FileId × Nat)) (pick : ClueWeb22Format),
      (diffFormats ClueWeb22Subset.B = [] ∧
        docsCountModel ClueWeb22Subset.B catalog pick
          = ((catalog ClueWeb22Format.HTML).map Prod.snd).sum) ∧
      (∀ s : ClueWeb22Subset, pick ∈ diffFormats s →
        docsCountModel s catalog pick = ((catalog pick).map Prod.snd).sum) ∧
      diffFormats ClueWeb22Subset.L = [ClueWeb22Format.TXT] ∧
      diffFormats ClueWeb22Subset.A = [ClueWeb22Format.HTML, ClueWeb22Format.INLINK,
        ClueWeb22Format.OUTLINK, ClueWeb22Format.VDOM] := by
  intro catalog pick
  refine ⟨⟨by decide, ?_⟩, ?_, by decide, by decide⟩
  · unfold docsCountModel diffFormatRecordCounts
    rw [if_pos (by decide)]
  · intro s hp
    cases s with
    | L =>
      unfold docsCountModel diffFormatRecordCounts
      rw [if_neg (by decide)]
    | A =>
      unfold docsCountModel diffFormatRecordCounts
      rw [if_neg (by decide)]
    | B =>
      rw [show diffFormats ClueWeb22Subset.B = [] from by decide] at hp
      exact absurd hp (List.not_mem_nil pick)

/-- C5 witness: an A-subset count over a two-shard catalog via the HTML
diff format. -/
theorem c5_docs_count_witness :
    docsCountModel ClueWeb22Subset.A
      (fun _ => [(⟨"en", 0, 0, 0⟩, 3), (⟨"en", 0, 0, 1⟩, 4)]) ClueWeb22Format.HTML = 7 :=
  ((c5_docs_count (fun _ => [(⟨"en", 0, 0, 0⟩, 3), (⟨"en", 0, 0, 1⟩, 4)])
      ClueWeb22Format.HTML).2.1 ClueWeb22Subset.A (by decide)).trans (by decide)

/- ------------------------------------------------------------------ -/
/- Claim C6: subset-constrained record counts.                         -/
/- ------------------------------------------------------------------ -/

/-- C6, corrected: the broader catalog's iterator is created once and
consumed destructively across outer iterations, so the claimed behaviour
holds only when the diff FileIds occur in the broader catalog in matching
relative order — precisely, when the diff id sequence is an
order-preserving subsequence of the broader id sequence (which the sorted
CSV catalogs guarantee), `record_counts` emits exactly the diff pairs;
for other catalogs a diff id that is missing or out of order finds the
iterator exhausted, emits nothing, and suppresses every later pair (see
the counterexample). -/
theorem c6_record_counts :
    ∀ (broader diff : List (ClueWeb22FileId × Nat)),
      List.Sublist (diff.map Prod.fst) (broader.map Prod.fst) →
      recordCountsJoin broader diff = diff := by
  intro broader
  induction broader with
  | nil =>
    intro diff h
    have hmap : diff.map Prod.fst = [] := List.sublist_nil.mp h
    have hd : diff = [] := by
      cases diff with
      | nil => rfl
      | cons p ps => exact absurd hmap (by simp)
    rw [hd]
    rfl
  | cons bc broader' ih =>
    intro diff h
    cases diff with
    | nil => rfl
    | cons dc diff' =>
      obtain ⟨d, dcount⟩ := dc
      obtain ⟨f, fcount⟩ := bc
      rw [List.map_cons, List.map_cons] at h
      by_cases hfd : f = d
      · subst hfd
        have hsub : List.Sublist (diff'.map Prod.fst) (broader'.map Prod.fst) :=
          List.cons_sublist_cons.mp h
        have hdrop : dropToMatch ((f, fcount) :: broader') f = some broader' := by
          show (if f = f then some broader' else dropToMatch broader' f) = some broader'
          rw [if_pos rfl]
        have hstep2 : recordCountsJoin ((f, fcount) :: broader') ((f, dcount) :: diff')
            = (f, dcount) :: recordCountsJoin broader' diff' := by
          conv_lhs => rw [recordCountsJoin]
          rw [hdrop]
        rw [hstep2, ih diff' hsub]
      · have hstep : List.Sublist (d :: diff'.map Prod.fst) (broader'.map Prod.fst) := by
          cases h with
          | cons _ h' => exact h'
          | cons₂ h' => exact absurd rfl hfd
        have hrec := ih ((d, dcount) :: diff') (by rw [List.map_cons]; exact hstep)
        have hdrop : dropToMatch ((f, fcount) :: broader') d = dropToMatch broader' d := by
          show (if f = d then some broader' else dropToMatch broader' d) = dropToMatch broader' d
          rw [if_neg hfd]
        have hstep2 : recordCountsJoin ((f, fcount) :: broader') ((d, dcount) :: diff')
            = recordCountsJoin broader' ((d, dcount) :: diff') := by
          conv_lhs => rw [recordCountsJoin]
          conv_rhs => rw [recordCountsJoin]
          rw [hdrop]
        exact hstep2.trans hrec

/-- C6 witness: with the diff ids an in-order subsequence of the broader
catalog, the join returns the diff pairs exactly. -/
theorem c6_record_counts_witness :
    recordCountsJoin [(⟨"en", 0, 0, 0⟩, 5), (⟨"en", 0, 0, 1⟩, 7), (⟨"en", 0, 0, 2⟩, 9)]
      [(⟨"en", 0, 0, 0⟩, 1), (⟨"en", 0, 0, 2⟩, 2)]
      = [(⟨"en", 0, 0, 0⟩, 1), (⟨"en", 0, 0, 2⟩, 2)] :=
  c6_record_counts _ _ (by decide)

/-- C6 counterexample: with broader catalog `[X, Y]` and diff catalog
`[(Y, 1), (X, 2)]` (out of order), the code emits only `(Y, 1)` — the
pair `(X, 2)`, whose FileId does occur in the broader catalog, is lost
because the single-pass iterator is already exhausted — while the claim
demands both pairs. -/
theorem c6_counterexample :
    recordCountsJoin [(⟨"en", 0, 0, 0⟩, 5), (⟨"en", 0, 0, 1⟩, 7)]
        [(⟨"en", 0, 0, 1⟩, 1), (⟨"en", 0, 0, 0⟩, 2)]
      = [(⟨"en", 0, 0, 1⟩, 1)] ∧
    recordCountsClaim [(⟨"en", 0, 0, 0⟩, 5), (⟨"en", 0, 0, 1⟩, 7)]
        [(⟨"en", 0, 0, 1⟩, 1), (⟨"en", 0, 0, 0⟩, 2)]
      = [(⟨"en", 0, 0, 1⟩, 1), (⟨"en", 0, 0, 0⟩, 2)] ∧
    recordCountsJoin [(⟨"en", 0, 0, 0⟩, 5), (⟨"en", 0, 0, 1⟩, 7)]
        [(⟨"en", 0, 0, 1⟩, 1), (⟨"en", 0, 0, 0⟩, 2)]
      ≠ recordCountsClaim [(⟨"en", 0, 0, 0⟩, 5), (⟨"en", 0, 0, 1⟩, 7)]
        [(⟨"en", 0, 0, 1⟩, 1), (⟨"en", 0, 0, 0⟩, 2)] := by
  refine ⟨by decide, by decide, by decide⟩

/- ------------------------------------------------------------------ -/
/- Claims C7 and C8: the combiner.                                     -/
/- ------------------------------------------------------------------ -/

/-- C7: whenever the A- or B-subset combiner emits a document from an
aligned record tuple, the doc_id, url, url_hash, language, date, html,
record_id, payload_digest and vdom_nodes fields come from the HTML
record, the text field from the TXT record, the vdom blob from the VDOM
record, and a null INLINK or OUTLINK record contributes an empty anchor
list. -/
theorem c7_fields :
    (∀ (txt : TxtRec) (html : HtmlRec) (inlink outlink : Option LinkRec) (vdom : VdomRec)
        (doc : ClueWeb22ADoc), combineADoc txt html inlink outlink vdom = some doc →
      doc.doc_id = html.doc_id ∧ doc.url = html.url ∧ doc.url_hash = html.url_hash ∧
      doc.language = html.language ∧ doc.date = html.date ∧ doc.html = html.html ∧
      doc.record_id = html.record_id ∧ doc.payload_digest = html.payload_digest ∧
      doc.vdom_nodes = html.vdom_nodes ∧ doc.text = txt.text ∧ doc.vdom = vdom.vdom ∧
      (inlink = none → doc.inlink_anchors = []) ∧
      (outlink = none → doc.outlink_anchors = [])) ∧
    (∀ (txt : TxtRec) (html : HtmlRec) (inlink outlink : Option LinkRec) (vdom : VdomRec)
        (doc : ClueWeb22BDoc), combineBDoc txt html inlink outlink vdom = some doc →
      doc.doc_id = html.doc_id ∧ doc.url = html.url ∧ doc.url_hash = html.url_hash ∧
      doc.language = html.language ∧ doc.date = html.date ∧ doc.html = html.html ∧
      doc.record_id = html.record_id ∧ doc.payload_digest = html.payload_digest ∧
      doc.vdom_nodes = html.vdom_nodes ∧ doc.text = txt.text ∧ doc.vdom = vdom.vdom ∧
      (inlink = none → doc.inlink_anchors = []) ∧
      (outlink = none → doc.outlink_anchors = [])) := by
  constructor
  · intro txt html inlink outlink vdom doc h
    unfold combineADoc at h
    split at h
    · exact absurd h (by simp)
    · split at h
      · exact absurd h (by simp)
      · split at h
        · exact absurd h (by simp)
        · split at h
          · exact absurd h (by simp)
          · split at h
            · exact absurd h (by simp)
            · injection h with h'
              rw [← h']
              refine ⟨rfl, rfl, rfl, rfl, rfl, rfl, rfl, rfl, rfl, rfl, rfl, ?_, ?_⟩
              · intro he
                rw [he]
                rfl
              · intro he
                rw [he]
                rfl
  · intro txt html inlink outlink vdom doc h
    unfold combineBDoc at h
    split at h
    · exact absurd h (by simp)
    · split at h
      · exact absurd h (by simp)
      · split at h
        · exact absurd h (by simp)
        · split at h
          · exact absurd h (by simp)
          · split at h
            · exact absurd h (by simp)
            · injection h with h'
              rw [← h']
              refine ⟨rfl, rfl, rfl, rfl, rfl, rfl, rfl, rfl, rfl, rfl, rfl, ?_, ?_⟩
              · intro he
                rw [he]
                rfl
              · intro he
                rw [he]
                rfl

/-- C7 witness: a concrete aligned tuple with null links combines into a
document whose text comes from the TXT record and whose inlink anchor
list is empty. -/
theorem c7_fields_witness :
    (⟨"id", "u", "h", "en", "body", 1, [7], 2, "pd", [], [9], [], []⟩ : ClueWeb22ADoc).text
      = (⟨"id", "u", "h", "en", "body"⟩ : TxtRec).text ∧
    (⟨"id", "u", "h", "en", "body", 1, [7], 2, "pd", [], [9], [], []⟩ : ClueWeb22ADoc).inlink_anchors
      = [] := by
  have h := c7_fields.1 ⟨"id", "u", "h", "en", "body"⟩ ⟨"id", "u", "h", "en", 1, 2, "pd", [7], []⟩
    none none ⟨[9]⟩ ⟨"id", "u", "h", "en", "body", 1, [7], 2, "pd", [], [9], [], []⟩ (by decide)
  exact ⟨h.2.2.2.2.2.2.2.2.2.1, h.2.2.2.2.2.2.2.2.2.2.2.1 rfl⟩

/-- C8: the combiner's language consistency check fails exactly when the
TXT language differs from the HTML language and is not the literal
`"other"`; a TXT language of `"other"` passes against any HTML language;
and a failed check aborts both the A and the B combiner (the assertion
raises, no document is emitted). -/
theorem c8_language_check :
    (∀ txtLanguage htmlLanguage : String, languageCheck txtLanguage htmlLanguage = false ↔
      (txtLanguage ≠ htmlLanguage ∧ txtLanguage ≠ "other")) ∧
    (∀ htmlLanguage : String, languageCheck "other" htmlLanguage = true) ∧
    (∀ (txt : TxtRec) (html : HtmlRec) (inlink outlink : Option LinkRec) (vdom : VdomRec),
      languageCheck txt.language html.language = false →
        combineADoc txt html inlink outlink vdom = none ∧
        combineBDoc txt html inlink outlink vdom = none) := by
  refine ⟨?_, ?_, ?_⟩
  · intro t h
    unfold languageCheck
    rw [Bool.or_eq_false_iff]
    constructor
    · rintro ⟨h1, h2⟩
      exact ⟨by simpa using h2, by simpa using h1⟩
    · rintro ⟨h1, h2⟩
      exact ⟨by simpa using h2, by simpa using h1⟩
  · intro h
    unfold languageCheck
    simp
  · intro txt html inlink outlink vdom hcheck
    constructor
    · simp [combineADoc, hcheck]
    · simp [combineBDoc, hcheck]

/-- C8 witness: a TXT record with language `de` against an HTML record
with language `en` fails the check and both combiners emit nothing. -/
theorem c8_language_check_witness :
    combineADoc ⟨"id", "u", "h", "de", "body"⟩ ⟨"id", "u", "h", "en", 1, 2, "pd", [7], []⟩
        none none ⟨[9]⟩ = none ∧
    combineBDoc ⟨"id", "u", "h", "de", "body"⟩ ⟨"id", "u", "h", "en", 1, 2, "pd", [7], []⟩
        none none ⟨[9]⟩ = none :=
  c8_language_check.2.2 ⟨"id", "u", "h", "de", "body"⟩ ⟨"id", "u", "h", "en", 1, 2, "pd", [7], []⟩
    none none ⟨[9]⟩ (by decide)
